import Mathlib

/-!
Verification development for the HybridBar configuration cache (`src/config.rs`).

The cached JSON document is modelled explicitly and passed to each accessor:
a reader operation in the source takes a read lock on the global `CONFIG`
document and works on the snapshot it sees, which is exactly the `doc`
parameter here.  Fatal errors (Rust panics) are modelled with `Except Fatal`.
-/

namespace Config

/-- Model of the external JSON capability (`json::JsonValue`).  Objects keep
their entries in document order; numbers are modelled as integers (the two
value kinds the configuration supports are strings and 32-bit integers). -/
inductive Json where
  | null
  | bool (b : Bool)
  | num (n : Int)
  | str (s : String)
  | arr (elems : List Json)
  | obj (members : List (String × Json))

namespace Json

/-- `JsonValue`'s `Index<&str>` impl: field lookup on objects, `Null` on a
missing field or a non-object. -/
def index (j : Json) (name : String) : Json :=
  match j with
  | obj ms =>
    match ms.find? (fun e => e.1 == name) with
    | some e => e.2
    | none => null
  | _ => null

/-- `JsonValue::has_key`: only objects have keys. -/
def has_key (j : Json) (key : String) : Bool :=
  match j with
  | obj ms => ms.any (fun e => e.1 == key)
  | _ => false

/-- `JsonValue::as_i32`: succeeds exactly on numbers fitting a signed 32-bit
integer; every other shape yields `none`. -/
def as_i32 : Json → Option Int
  | num n => if -2147483648 ≤ n ∧ n ≤ 2147483647 then some n else none
  | _ => none

/-- `JsonValue::entries()`: the members of an object, empty for anything else. -/
def entries : Json → List (String × Json)
  | obj ms => ms
  | _ => []

/-- JSON string escaping used by `dump`. -/
def escapeChar (c : Char) : List Char :=
  if c = '"' ∨ c = '\\' then ['\\', c] else [c]

/-- Escape a string for inclusion in serialized JSON. -/
def escape (s : String) : String :=
  ⟨s.data.foldr (fun c acc => escapeChar c ++ acc) []⟩

mutual

/-- `JsonValue::dump()`: serialized JSON text. -/
def dump : Json → String
  | null => "null"
  | bool b => if b then "true" else "false"
  | num n => toString n
  | str s => "\"" ++ escape s ++ "\""
  | arr xs => "[" ++ dumpList xs ++ "]"
  | obj ms => "\x7b" ++ dumpMembers ms ++ "\x7d"

/-- Comma-separated dump of array elements. -/
def dumpList : List Json → String
  | [] => ""
  | [x] => dump x
  | x :: y :: xs => dump x ++ "," ++ dumpList (y :: xs)

/-- Comma-separated dump of object members. -/
def dumpMembers : List (String × Json) → String
  | [] => ""
  | [(k, v)] => "\"" ++ escape k ++ "\":" ++ dump v
  | (k, v) :: f :: es => "\"" ++ escape k ++ "\":" ++ dump v ++ "," ++ dumpMembers (f :: es)

end

/-- `Display for JsonValue` (what `.to_string()` produces): strings render
without quotes, scalars render plainly, arrays and objects render as their
serialized dump. -/
def to_string : Json → String
  | str s => s
  | num n => toString n
  | bool b => if b then "true" else "false"
  | null => "null"
  | arr xs => dump (arr xs)
  | obj ms => dump (obj ms)

end Json

/-- Does the pattern start the string?  (Kernel of Rust substring search.) -/
def startsWithL : List Char → List Char → Bool
  | _, [] => true
  | [], _ :: _ => false
  | c :: rest, q :: qs => c == q && startsWithL rest qs

/-- Rust `str::contains(pat)`: the pattern occurs as a literal substring; the
empty pattern occurs in every string. -/
def containsL : List Char → List Char → Bool
  | _, [] => true
  | [], _ :: _ => false
  | c :: rest, q :: qs => startsWithL (c :: rest) (q :: qs) || containsL rest (q :: qs)

/-- Core of Rust `String::replace` for a non-empty pattern: scan left to
right, replacing each non-overlapping occurrence with `rep`.  The recursion is
driven by a fuel counter that starts at the scanned list's length; every step
consumes at least one character, so the fuel never runs out and the fallback
arm is unreachable. -/
def replaceCore (q : Char) (qs rep : List Char) : Nat → List Char → List Char
  | _, [] => []
  | 0, l => l
  | fuel + 1, c :: rest =>
    if startsWithL (c :: rest) (q :: qs) then
      rep ++ replaceCore q qs rep fuel (rest.drop qs.length)
    else c :: replaceCore q qs rep fuel rest

/-- Rust `String::replace(pat, rep)`: an empty pattern matches at every
character boundary (so `rep` is inserted before, between and after all
characters); a non-empty pattern has all its occurrences replaced. -/
def replaceL (s pat rep : List Char) : List Char :=
  match pat with
  | [] => rep ++ s.foldr (fun c acc => c :: (rep ++ acc)) []
  | q :: qs => replaceCore q qs rep s.length s

/-- Rust `str::contains` lifted to `String`. -/
def contains_str (s pat : String) : Bool := containsL s.data pat.data

/-- Rust `String::replace` lifted to `String`. -/
def replace_str (s pat rep : String) : String := ⟨replaceL s.data pat.data rep.data⟩

/-- The fatal (process-terminating) conditions of `config.rs`, one constructor
per distinct panic site reachable from the modelled functions. -/
inductive Fatal where
  /-- `[ERROR] Failed parsing root:key as i32` -/
  | parseI32 (root key : String)
  /-- `[ERROR] You cannot have more than 64 variables` -/
  | tooManyVariables
  /-- `[ERROR] Cannot convert update_rate into u64` -/
  | updateRateConv
deriving DecidableEq

/-- The push loop of `get_custom_variables`: a `heapless::Vec<_, 64>` push
succeeds while fewer than 64 entries are stored, and the `.expect` on a full
vector is fatal. -/
def pushVars : List (String × Json) → List (String × String) →
    Except Fatal (List (String × String))
  | [], acc => .ok acc
  | e :: rest, acc =>
    if acc.length < 64 then pushVars rest (acc ++ [(e.1, e.2.to_string)])
    else .error .tooManyVariables

/-- `get_custom_variables()`: collect the entries of the `variables` section of
the cached document into a 64-bounded vector of string pairs. -/
def get_custom_variables (doc : Json) : Except Fatal (List (String × String)) :=
  pushVars ((doc.index "variables").entries) []

/-- One iteration of the `with_variables` loop: replace only when the result
actually contains the variable's name. -/
def applyVar (result : String) (v : String × String) : String :=
  if contains_str result v.1 then replace_str result v.1 v.2 else result

/-- The loop of `with_variables` over an already-collected variable table:
sequential, in table order, each step rewriting the previous step's output. -/
def substituteVars (vars : List (String × String)) (input : String) : String :=
  vars.foldl applyVar input

/-- `with_variables(input)`: collect the variable table from the cached
document, then rewrite `input` with it; the 64-variable bound propagates. -/
def with_variables (doc : Json) (input : String) : Except Fatal String :=
  (get_custom_variables doc).map (fun vars => substituteVars vars input)

/-- `try_get(root, key, is_string, with_custom_variables)` against the cached
document `doc`. -/
def try_get (doc : Json) (root key : String) ( is_string with_custom_variables : Bool) :
    Except Fatal (Option (String × Int)) :=
  let config := doc.index root
  if config.has_key key then
    let grabbed_value := config.index key
    if ! is_string then
      match grabbed_value.as_i32 with
      | some n => .ok (some ("", n))
      | none => .error (.parseI32 root key)
    else if with_custom_variables then
      (with_variables doc grabbed_value.to_string).map (fun s => some (s, 0))
    else
      .ok (some (grabbed_value.to_string, 0))
  else
    .ok none

/-- `get_or_default`: `try_get` with `None` collapsed to `("", 0)`. -/
def get_or_default (doc : Json) (root key : String) ( is_string with_custom_variables : Bool) :
    Except Fatal (String × Int) :=
  (try_get doc root key is_string with_custom_variables).map (fun o => o.getD ("", 0))

/-- Modelled from the spec: the external math utility `clamp(value, min, max)`
(`math::clamp_i32`, not part of the provided source) clamps `value` into the
closed range `[lo, hi]`. -/
def clamp_i32 (value lo hi : Int) : Int :=
  if value < lo then lo else if hi < value then hi else value

/-- `get_update_rate()`: default 100 when `hybrid.update_rate` is absent,
otherwise the value clamped into `[5, 10000]`; the final signed-to-unsigned
conversion is fatal on a negative value (the defensive `.expect`). -/
def get_update_rate (doc : Json) : Except Fatal Nat :=
  match try_get doc "hybrid" "update_rate" false false with
  | .error e => .error e
  | .ok o =>
    let update_rate : Int :=
      match o with
      | none => 100
      | some r => clamp_i32 r.2 5 10000
    if 0 ≤ update_rate then .ok update_rate.toNat else .error .updateRateConv

/-- The claim's comparator for the guard in `with_variables`: the same
sequential rewrite, but applying `replace` unconditionally for each variable
in table order, without the `contains` test. -/
def substituteVarsSimple (vars : List (String × String)) (input : String) : String :=
  vars.foldl (fun r v => replace_str r v.1 v.2) input

/-! ## Concrete documents used as test fixtures -/

/-- A document whose `variables` section is `[(A, B), (B, C)]` in that order. -/
def docAB : Json :=
  .obj [("variables", .obj [("A", .str "B"), ("B", .str "C")])]

/-- A document whose `variables` section defines `FOO → bar`. -/
def docFOO : Json :=
  .obj [("variables", .obj [("FOO", .str "bar")])]

/-- `n` distinct variable entries `"0" → "x", ..., "n-1" → "x"`. -/
def varEntries (n : Nat) : List (String × Json) :=
  (List.range n).map (fun i => (toString i, Json.str "x"))

/-- A document with exactly 64 variables. -/
def doc64 : Json := .obj [("variables", .obj (varEntries 64))]

/-- A document with a present string value `a.k` and 65 variables. -/
def doc65 : Json :=
  .obj [("a", .obj [("k", .str "x")]), ("variables", .obj (varEntries 65))]

/-- A document with `hybrid.update_rate` set to the integer `n`. -/
def docRate (n : Int) : Json :=
  .obj [("hybrid", .obj [("update_rate", .num n)])]

end Config

namespace Config

/-! ## Helper lemmas -/

theorem containsL_nil_pat (s : List Char) : containsL s [] = true := by
  cases s <;> rfl

theorem replaceCore_id_of_not_contains (q : Char) (qs rep : List Char) :
    ∀ (fuel : Nat) (s : List Char),
      containsL s (q :: qs) = false → replaceCore q qs rep fuel s = s := by
  intro fuel
  induction fuel with
  | zero => intro s _; cases s <;> rfl
  | succ fuel ih =>
    intro s h
    cases s with
    | nil => rfl
    | cons c rest =>
      simp only [containsL, Bool.or_eq_false_iff] at h
      simp [replaceCore, h.1, ih rest h.2]

theorem replace_str_id_of_not_contains (s pat rep : String)
    (h : contains_str s pat = false) : replace_str s pat rep = s := by
  cases hp : pat.data with
  | nil =>
    exfalso
    simp only [contains_str, hp, containsL_nil_pat] at h
    exact Bool.noConfusion h
  | cons q qs =>
    simp only [contains_str, hp] at h
    show String.mk (replaceL s.data pat.data rep.data) = s
    rw [hp]
    show String.mk (replaceCore q qs rep.data s.data.length s.data) = s
    rw [replaceCore_id_of_not_contains q qs rep.data s.data.length s.data h]

theorem applyVar_eq_replace (t : String) (v : String × String) :
    applyVar t v = replace_str t v.1 v.2 := by
  unfold applyVar
  split
  · rfl
  · next hc => exact (replace_str_id_of_not_contains t v.1 v.2 (by simpa using hc)).symm

theorem substituteVars_id :
    ∀ (vars : List (String × String)) (t : String),
      (∀ p ∈ vars, contains_str t p.1 = false) → substituteVars vars t = t := by
  intro vars
  induction vars with
  | nil => intro t _; rfl
  | cons v rest ih =>
    intro t h
    have h1 : contains_str t v.1 = false := h v (List.mem_cons_self v rest)
    have hstep : applyVar t v = t := by unfold applyVar; rw [h1]; simp
    show substituteVars rest (applyVar t v) = t
    rw [hstep]
    exact ih t (fun p hp => h p (List.mem_cons_of_mem v hp))

theorem pushVars_ok :
    ∀ (es : List (String × Json)) (acc : List (String × String)),
      acc.length + es.length ≤ 64 →
      pushVars es acc = .ok (acc ++ es.map (fun e => (e.1, e.2.to_string))) := by
  intro es
  induction es with
  | nil => intro acc _; simp [pushVars]
  | cons e rest ih =>
    intro acc h
    simp only [List.length_cons] at h
    have hlt : acc.length < 64 := by omega
    rw [pushVars, if_pos hlt, ih (acc ++ [(e.1, e.2.to_string)]) (by simp; omega)]
    simp

theorem pushVars_err :
    ∀ (es : List (String × Json)) (acc : List (String × String)),
      acc.length ≤ 64 → 64 < acc.length + es.length →
      pushVars es acc = .error .tooManyVariables := by
  intro es
  induction es with
  | nil => intro acc h1 h2; simp at h2; omega
  | cons e rest ih =>
    intro acc h1 h2
    simp only [List.length_cons] at h2
    by_cases hlt : acc.length < 64
    · rw [pushVars, if_pos hlt]
      exact ih _ (by simp; omega) (by simp; omega)
    · rw [pushVars, if_neg hlt]

theorem get_custom_variables_ok (doc : Json)
    (h : (doc.index "variables").entries.length ≤ 64) :
    get_custom_variables doc =
      .ok ((doc.index "variables").entries.map (fun e => (e.1, e.2.to_string))) := by
  have := pushVars_ok ((doc.index "variables").entries) [] (by simpa using h)
  simpa [get_custom_variables] using this

theorem get_custom_variables_err (doc : Json)
    (h : 64 < (doc.index "variables").entries.length) :
    get_custom_variables doc = .error .tooManyVariables := by
  have := pushVars_err ((doc.index "variables").entries) [] (by simp) (by simpa using h)
  simpa [get_custom_variables] using this

theorem clamp_i32_bounds (v lo hi : Int) (h : lo ≤ hi) :
    lo ≤ clamp_i32 v lo hi ∧ clamp_i32 v lo hi ≤ hi := by
  unfold clamp_i32
  split
  · omega
  · split <;> omega

end Config

namespace Config

/-- `try_get` with its local lets inlined, for case analysis in proofs. -/
theorem try_get_eq (doc : Json) (S K : String) (b w : Bool) :
    try_get doc S K b w =
      if (doc.index S).has_key K then
        if !b then
          match ((doc.index S).index K).as_i32 with
          | some n => .ok (some ("", n))
          | none => .error (.parseI32 S K)
        else if w then
          (with_variables doc ((doc.index S).index K).to_string).map (fun s => some (s, 0))
        else .ok (some (((doc.index S).index K).to_string, 0))
      else .ok none := rfl

theorem try_get_not_found (doc : Json) (S K : String) (b w : Bool)
    (h : (doc.index S).has_key K = false) :
    try_get doc S K b w = .ok none := by
  rw [try_get_eq, if_neg (by simp [h])]

theorem try_get_int_ok (doc : Json) (S K : String) (V : Int) (w : Bool)
    (hk : (doc.index S).has_key K = true)
    (hv : (doc.index S).index K = Json.num V)
    (hlo : -2147483648 ≤ V) (hhi : V ≤ 2147483647) :
    try_get doc S K false w = .ok (some ("", V)) := by
  rw [try_get_eq, if_pos hk, hv]
  simp only [Json.as_i32, Bool.not_false, if_true]
  rw [if_pos ⟨hlo, hhi⟩]

theorem try_get_false_error_eq (doc : Json) (S K : String) (w : Bool) (e : Fatal)
    (h : try_get doc S K false w = .error e) : e = .parseI32 S K := by
  rw [try_get_eq] at h
  by_cases hk : (doc.index S).has_key K = true
  · rw [if_pos hk] at h
    simp only [Bool.not_false, if_true] at h
    cases ha : ((doc.index S).index K).as_i32 with
    | some n => rw [ha] at h; exact absurd h (by simp)
    | none => rw [ha] at h; exact (Except.error.inj h).symm
  · rw [if_neg hk] at h
    exact absurd h (by simp)

theorem try_get_false_error_iff (doc : Json) (S K : String) (w : Bool)
    (hk : (doc.index S).has_key K = true) :
    try_get doc S K false w = .error (.parseI32 S K) ↔
      ((doc.index S).index K).as_i32 = none := by
  rw [try_get_eq, if_pos hk]
  simp only [Bool.not_false, if_true]
  cases ha : ((doc.index S).index K).as_i32 with
  | some n => simp
  | none => simp

theorem try_get_string_snd_zero (doc : Json) (S K : String) (w : Bool) (r : String × Int)
    (h : try_get doc S K true w = .ok (some r)) : r.2 = 0 := by
  rw [try_get_eq] at h
  by_cases hk : (doc.index S).has_key K = true
  · rw [if_pos hk] at h
    simp only [Bool.not_true] at h
    rw [if_neg (by simp)] at h
    cases w with
    | true =>
      rw [if_pos rfl] at h
      cases hw : with_variables doc ((doc.index S).index K).to_string with
      | ok s =>
        rw [hw] at h
        simp only [Except.map] at h
        have := Except.ok.inj h
        have := Option.some.inj this
        rw [← this]
      | error e =>
        rw [hw] at h
        exact absurd h (by simp [Except.map])
    | false =>
      rw [if_neg (by simp)] at h
      have := Except.ok.inj h
      have := Option.some.inj this
      rw [← this]
  · rw [if_neg hk] at h
    exact absurd (Except.ok.inj h) (by simp)

end Config

namespace Config

theorem with_variables_ok (doc : Json) (t : String)
    (h : (doc.index "variables").entries.length ≤ 64) :
    with_variables doc t =
      .ok (substituteVars
            ((doc.index "variables").entries.map (fun e => (e.1, e.2.to_string))) t) := by
  unfold with_variables
  rw [get_custom_variables_ok doc h]
  rfl

theorem with_variables_err (doc : Json) (t : String)
    (h : 64 < (doc.index "variables").entries.length) :
    with_variables doc t = .error Fatal.tooManyVariables := by
  unfold with_variables
  rw [get_custom_variables_err doc h]
  rfl

theorem try_get_true_false_ok (doc : Json) (S K : String)
    (hk : (doc.index S).has_key K = true) :
    try_get doc S K true false = .ok (some (((doc.index S).index K).to_string, 0)) := by
  rw [try_get_eq, if_pos hk]
  rfl

theorem try_get_true_true_ok (doc : Json) (S K : String)
    (hk : (doc.index S).has_key K = true)
    (hlen : (doc.index "variables").entries.length ≤ 64) :
    try_get doc S K true true =
      .ok (some (substituteVars
            ((doc.index "variables").entries.map (fun e => (e.1, e.2.to_string)))
            (((doc.index S).index K).to_string), 0)) := by
  rw [try_get_eq, if_pos hk]
  show (with_variables doc (((doc.index S).index K).to_string)).map (fun s => some (s, 0)) = _
  rw [with_variables_ok doc _ hlen]
  rfl

theorem try_get_true_true_err (doc : Json) (S K : String)
    (hk : (doc.index S).has_key K = true)
    (hlen : 64 < (doc.index "variables").entries.length) :
    try_get doc S K true true = .error Fatal.tooManyVariables := by
  rw [try_get_eq, if_pos hk]
  show (with_variables doc (((doc.index S).index K).to_string)).map (fun s => some (s, 0)) = _
  rw [with_variables_err doc _ hlen]
  rfl

theorem try_get_true_true_err_iff (doc : Json) (S K : String)
    (hk : (doc.index S).has_key K = true) :
    try_get doc S K true true = .error Fatal.tooManyVariables ↔
      64 < (doc.index "variables").entries.length := by
  by_cases hlen : 64 < (doc.index "variables").entries.length
  · simp [try_get_true_true_err doc S K hk hlen, hlen]
  · push_neg at hlen
    rw [try_get_true_true_ok doc S K hk hlen]
    constructor
    · intro h; exact absurd h (by simp)
    · intro h; omega

theorem try_get_true_error_eq (doc : Json) (S K : String) (w : Bool) (e : Fatal)
    (h : try_get doc S K true w = .error e) : e = Fatal.tooManyVariables := by
  by_cases hk : (doc.index S).has_key K = true
  · cases w with
    | false =>
      rw [try_get_true_false_ok doc S K hk] at h
      exact absurd h (by simp)
    | true =>
      by_cases hlen : 64 < (doc.index "variables").entries.length
      · rw [try_get_true_true_err doc S K hk hlen] at h
        exact (Except.error.inj h).symm
      · push_neg at hlen
        rw [try_get_true_true_ok doc S K hk hlen] at h
        exact absurd h (by simp)
  · rw [Bool.not_eq_true] at hk
    rw [try_get_not_found doc S K true w hk] at h
    exact absurd h (by simp)

theorem try_get_int_of_as_i32 (doc : Json) (S K : String) (w : Bool) (n : Int)
    (hk : (doc.index S).has_key K = true)
    (ha : ((doc.index S).index K).as_i32 = some n) :
    try_get doc S K false w = .ok (some ("", n)) := by
  rw [try_get_eq, if_pos hk]
  show (match ((doc.index S).index K).as_i32 with
        | some n => (Except.ok (some ("", n)) : Except Fatal (Option (String × Int)))
        | none => .error (.parseI32 S K)) = _
  rw [ha]

theorem get_update_rate_absent (doc : Json)
    (h : (doc.index "hybrid").has_key "update_rate" = false) :
    get_update_rate doc = .ok 100 := by
  unfold get_update_rate
  rw [try_get_not_found doc "hybrid" "update_rate" false false h]
  rfl

theorem get_update_rate_of_try (doc : Json) (n : Int)
    (h : try_get doc "hybrid" "update_rate" false false = .ok (some ("", n))) :
    get_update_rate doc = .ok (clamp_i32 n 5 10000).toNat := by
  have h5 := (clamp_i32_bounds n 5 10000 (by norm_num)).1
  unfold get_update_rate
  rw [h]
  show (if (0 : Int) ≤ clamp_i32 n 5 10000
        then (Except.ok (clamp_i32 n 5 10000).toNat : Except Fatal Nat)
        else Except.error Fatal.updateRateConv) = _
  rw [if_pos (by omega)]

theorem get_update_rate_err (doc : Json) (e : Fatal)
    (h : try_get doc "hybrid" "update_rate" false false = .error e) :
    get_update_rate doc = .error e := by
  unfold get_update_rate
  rw [h]

end Config

namespace Config

/-! ## Claim theorems -/

/-- C1: for every cached document whose section `S` contains key `K` with a
32-bit-integer value `V`, `try_get S K false w` returns `some` of a tuple
whose integer lane is `V` and whose unused string lane is the dummy `""`; and
symmetrically, every successful string-lane lookup carries `0` in the unused
integer lane. -/
theorem c1_typed_lanes (doc : Json) (S K : String) (V : Int) (w : Bool)
    (hk : (doc.index S).has_key K = true)
    (hv : (doc.index S).index K = Json.num V)
    (hlo : -2147483648 ≤ V) (hhi : V ≤ 2147483647) :
    try_get doc S K false w = .ok (some ("", V)) ∧
    ∀ (d : Json) (S2 K2 : String) (w2 : Bool) (r : String × Int),
      try_get d S2 K2 true w2 = .ok (some r) → r.2 = 0 :=
  ⟨try_get_int_ok doc S K V w hk hv hlo hhi,
   fun d S2 K2 w2 r h => try_get_string_snd_zero d S2 K2 w2 r h⟩

/-- Witness for C1 at a concrete document with `s.k = 7`. -/
theorem c1_typed_lanes_witness :
    try_get (Json.obj [("s", Json.obj [("k", Json.num 7)])]) "s" "k" false true
      = .ok (some ("", 7)) :=
  (c1_typed_lanes (Json.obj [("s", Json.obj [("k", Json.num 7)])]) "s" "k" 7 true
    rfl rfl (by decide) (by decide)).1

/-- C2: whenever section `S` is absent or key `K` is absent under `S` (which
is exactly when `has_key` is false, and holds in particular for the initial
null placeholder document), `try_get` returns `none` and `get_or_default`
returns `("", 0)`, for every flag combination, with no fatal error. -/
theorem c2_absent_defaults (doc : Json) (S K : String) (b w : Bool)
    (h : (doc.index S).has_key K = false) :
    try_get doc S K b w = .ok none ∧ get_or_default doc S K b w = .ok ("", 0) := by
  refine ⟨try_get_not_found doc S K b w h, ?_⟩
  unfold get_or_default
  rw [try_get_not_found doc S K b w h]
  rfl

/-- Witness for C2 at the initial null placeholder document. -/
theorem c2_absent_defaults_witness :
    try_get Json.null "hybrid" "update_rate" true true = .ok none ∧
    get_or_default Json.null "hybrid" "update_rate" true true = .ok ("", 0) :=
  c2_absent_defaults Json.null "hybrid" "update_rate" true true rfl

/-- C3 counterexample: the claim states that `try_get S K is_string=true _` on
a present value never fails, but with substitution requested and 65 variables
defined it reaches the fatal 64-variable bound: in `doc65` the value `a.k` is
present, yet the string-lane lookup with substitution fails. -/
theorem c3_counterexample :
    (doc65.index "a").has_key "k" = true ∧
    try_get doc65 "a" "k" true true = .error Fatal.tooManyVariables :=
  ⟨rfl, rfl⟩

/-- C3 (amended): for a present `S.K`, the integer-lane lookup reaches its
fatal branch if and only if the value is not interpretable as a 32-bit
integer, and that error identifies `S` and `K`; the string-lane lookup without
substitution always succeeds; the string-lane lookup with substitution never
fails from string conversion — its only fatal outcome is the 64-variable
bound, reached exactly when the `variables` section has more than 64
entries. -/
theorem c3_failure_modes (doc : Json) (S K : String) (w : Bool)
    (hk : (doc.index S).has_key K = true) :
    (try_get doc S K false w = .error (.parseI32 S K) ↔
      ((doc.index S).index K).as_i32 = none) ∧
    (∀ e, try_get doc S K false w = .error e → e = Fatal.parseI32 S K) ∧
    (∃ s, try_get doc S K true false = .ok (some (s, 0))) ∧
    (try_get doc S K true true = .error Fatal.tooManyVariables ↔
      64 < (doc.index "variables").entries.length) ∧
    (∀ e w2, try_get doc S K true w2 = .error e → e = Fatal.tooManyVariables) :=
  ⟨try_get_false_error_iff doc S K w hk,
   fun e he => try_get_false_error_eq doc S K w e he,
   ⟨((doc.index S).index K).to_string, try_get_true_false_ok doc S K hk⟩,
   try_get_true_true_err_iff doc S K hk,
   fun e w2 he => try_get_true_error_eq doc S K w2 e he⟩

/-- Witness for C3 (amended) at `doc65`, whose value `a.k` is present. -/
theorem c3_failure_modes_witness :
    ∃ s, try_get doc65 "a" "k" true false = .ok (some (s, 0)) :=
  (c3_failure_modes doc65 "a" "k" false rfl).2.2.1

/-- C4: substitution is sequential in variable-table order, each step acting
on the already-rewritten text; with the table `[(A, B), (B, C)]` in that order
(also as collected from a document), input `"A"` rewrites to `"B"` and the
freshly introduced `"B"` then rewrites to `"C"`. -/
theorem c4_cascading_substitution :
    (∀ (v : String × String) (rest : List (String × String)) (t : String),
        substituteVars (v :: rest) t = substituteVars rest (applyVar t v)) ∧
    substituteVars [("A", "B"), ("B", "C")] "A" = "C" ∧
    with_variables docAB "A" = .ok "C" :=
  ⟨fun _ _ _ => rfl, rfl, rfl⟩

/-- C5: a document defining `FOO → bar` substitutes the exact input `"FOO"`
to `"bar"`; and whenever the input text contains no occurrence of any
collected variable's name, substitution is the identity. -/
theorem c5_substitution_identity (doc : Json) (t : String)
    (vars : List (String × String))
    (hv : get_custom_variables doc = .ok vars)
    (hnone : ∀ p ∈ vars, contains_str t p.1 = false) :
    with_variables docFOO "FOO" = .ok "bar" ∧ with_variables doc t = .ok t := by
  refine ⟨rfl, ?_⟩
  unfold with_variables
  rw [hv]
  show Except.ok (substituteVars vars t) = Except.ok t
  rw [substituteVars_id vars t hnone]

/-- Witness for C5: `docFOO` defines only `FOO → bar` and `"xyz"` contains no
occurrence of `FOO`, so substitution leaves it unchanged. -/
theorem c5_substitution_identity_witness :
    with_variables docFOO "xyz" = .ok "xyz" :=
  (c5_substitution_identity docFOO "xyz" [("FOO", "bar")] rfl (by decide)).2

/-- C6: collecting the variable table succeeds on any `variables` section of
at most 64 entries (in particular exactly 64), yielding all pairs in document
order, and is fatal as soon as the section has more than 64 entries. -/
theorem c6_variable_bound (doc : Json) :
    ((doc.index "variables").entries.length ≤ 64 →
      get_custom_variables doc =
        .ok ((doc.index "variables").entries.map (fun e => (e.1, e.2.to_string)))) ∧
    (64 < (doc.index "variables").entries.length →
      get_custom_variables doc = .error Fatal.tooManyVariables) :=
  ⟨get_custom_variables_ok doc, get_custom_variables_err doc⟩

/-- Witness for C6: a document with exactly 64 variables succeeds, one with
65 variables is fatal. -/
theorem c6_variable_bound_witness :
    get_custom_variables doc64 =
      .ok ((doc64.index "variables").entries.map (fun e => (e.1, e.2.to_string))) ∧
    get_custom_variables doc65 = .error Fatal.tooManyVariables :=
  ⟨(c6_variable_bound doc64).1 (by decide), (c6_variable_bound doc65).2 (by decide)⟩

/-- C7: `get_update_rate` returns 100 when `hybrid.update_rate` is absent;
when present with integer value `V` it returns `clamp(V, 5, 10000)`; in
particular 3 clamps to 5, 50000 clamps to 10000, and 250 is unchanged. -/
theorem c7_update_rate (doc : Json) :
    ((doc.index "hybrid").has_key "update_rate" = false →
      get_update_rate doc = .ok 100) ∧
    (∀ V : Int, (doc.index "hybrid").has_key "update_rate" = true →
      (doc.index "hybrid").index "update_rate" = Json.num V →
      -2147483648 ≤ V → V ≤ 2147483647 →
      get_update_rate doc = .ok (clamp_i32 V 5 10000).toNat) ∧
    get_update_rate (docRate 3) = .ok 5 ∧
    get_update_rate (docRate 50000) = .ok 10000 ∧
    get_update_rate (docRate 250) = .ok 250 :=
  ⟨fun h => get_update_rate_absent doc h,
   fun V hk hv hlo hhi =>
     get_update_rate_of_try doc V
       (try_get_int_ok doc "hybrid" "update_rate" V false hk hv hlo hhi),
   rfl, rfl, rfl⟩

/-- Witness for C7: the empty placeholder has no `hybrid.update_rate`, and a
document with value 250 keeps it unchanged. -/
theorem c7_update_rate_witness :
    get_update_rate Json.null = .ok 100 ∧
    get_update_rate (docRate 250) = .ok (clamp_i32 250 5 10000).toNat :=
  ⟨(c7_update_rate Json.null).1 rfl,
   (c7_update_rate (docRate 250)).2.1 250 rfl rfl (by decide) (by decide)⟩

/-- C8: the defensive signed-to-unsigned conversion in `get_update_rate` can
never fail: for every cached document the returned value, when one is
returned, lies in `[5, 10000]` (the default 100 included), and the only fatal
outcome is the integer-parse error — never `updateRateConv`. -/
theorem c8_conversion_unreachable (doc : Json) :
    (∃ n : Nat, 5 ≤ n ∧ n ≤ 10000 ∧ get_update_rate doc = .ok n) ∨
    get_update_rate doc = .error (Fatal.parseI32 "hybrid" "update_rate") := by
  by_cases hk : (doc.index "hybrid").has_key "update_rate" = true
  · cases ha : ((doc.index "hybrid").index "update_rate").as_i32 with
    | some n =>
      left
      obtain ⟨hb1, hb2⟩ := clamp_i32_bounds n 5 10000 (by norm_num)
      refine ⟨(clamp_i32 n 5 10000).toNat, by omega, by omega, ?_⟩
      exact get_update_rate_of_try doc n
        (try_get_int_of_as_i32 doc "hybrid" "update_rate" false n hk ha)
    | none =>
      right
      exact get_update_rate_err doc _
        ((try_get_false_error_iff doc "hybrid" "update_rate" false hk).mpr ha)
  · left
    rw [Bool.not_eq_true] at hk
    exact ⟨100, by norm_num, by norm_num, get_update_rate_absent doc hk⟩

/-- C10: the `contains` guard in `with_variables` is redundant: the guarded
sequential rewrite agrees with the variant that unconditionally applies
`replace` for each variable in table order, because replacing a pattern that
does not occur is the identity. -/
theorem c10_guard_redundant :
    ∀ (vars : List (String × String)) (input : String),
      substituteVars vars input = substituteVarsSimple vars input := by
  intro vars
  induction vars with
  | nil => intro input; rfl
  | cons v rest ih =>
    intro input
    show substituteVars rest (applyVar input v)
        = substituteVarsSimple rest (replace_str input v.1 v.2)
    rw [applyVar_eq_replace input v]
    exact ih (replace_str input v.1 v.2)

end Config
